import Mathlib

/-!
Shallow embedding of src/image_ripper.py (moshekaplan/image_ripper).

The program orchestrates external tools (TSK fls/icat/fsstat, file, md5,
PyPDF2, EXIF).  External capabilities are modelled as an environment of
functions; the disk written by extraction is an explicit association list
from paths to byte contents; bytes are lists of Nat.
-/

namespace ImageRipper

/-- Bytes of a file: a list of byte values. -/
abbrev Bytes := List Nat

/-- Model of str.startswith: the candidate prefix must be an initial
segment of the string. -/
def strStartsWith (s pre : String) : Bool :=
  pre.data.isPrefixOf s.data

/-- Model of str.endswith. -/
def strEndsWith (s suf : String) : Bool :=
  suf.data.isSuffixOf s.data

/-- Helper for the basename after the last slash, accumulating the
characters seen since the most recent slash. -/
def lastComponentAux : List Char → List Char → List Char
  | [], acc => acc
  | c :: rest, acc => if c == '/' then lastComponentAux rest [] else lastComponentAux rest (acc ++ [c])

/-- Model of os.path.join for the shapes the script uses: an absolute
second component wins; otherwise the components are joined with a single
slash. -/
def pyJoin (a b : String) : String :=
  if strStartsWith b "/" then b
  else if a == "" then b
  else if strEndsWith a "/" then a ++ b
  else a ++ "/" ++ b

/-- Model of os.path.split: the second component (the only one the script
uses) is everything after the last slash, exactly as in Python. -/
def pySplit (p : String) : String × String :=
  let tail : List Char := lastComponentAux p.data []
  (String.mk (p.data.take (p.data.length - tail.length)), String.mk tail)

/-- The disk the extractor writes to: a path-to-content association list
(first binding wins). -/
abbrev Disk := List (String × Bytes)

/-- Write content at a path (overwriting any previous binding), as open(p, wb).write does. -/
def diskWrite (d : Disk) (p : String) (c : Bytes) : Disk :=
  (p, c) :: List.filter (fun e => e.1 != p) d

/-- Remove a path, as os.remove does. -/
def diskRemove (d : Disk) (p : String) : Disk :=
  List.filter (fun e => e.1 != p) d

/-- Read the content at a path, if present. -/
def diskGet (d : Disk) (p : String) : Option Bytes :=
  (List.find? (fun e => e.1 == p) d).map Prod.snd

/-- Read the content at a path with a default. -/
def diskGetD (d : Disk) (p : String) : Bytes :=
  (diskGet d p).getD []

/-- Whether a path exists on disk, as os.path.exists would report. -/
def diskHas (d : Disk) (p : String) : Bool :=
  (diskGet d p).isSome

/-- Result of running a subprocess: its stdout bytes and whether it
exited successfully.  subprocess.Popen + communicate in the script
returns (out, err); the exit status is never consulted. -/
structure SubprocResult where
  out : Bytes
  exitOk : Bool
deriving DecidableEq

/-- Environment of external capabilities consumed by extraction:
icat (the Content Fetcher, per image and location), the md5 digest of a
byte string (hashlib.md5(...).hexdigest()), and the label printed by
file -b for a byte string (the type sniffer). -/
structure Env where
  icat : String → String → SubprocResult
  md5 : Bytes → String
  label : Bytes → String

/-- Embedding of get_result_from_subprocess (image_ripper.py:52-55): the
subprocess stdout is returned; stderr and the exit status are discarded. -/
def get_result_from_subprocess (r : SubprocResult) : Bytes :=
  r.out

/-- Embedding of extract_file (image_ripper.py:103-107): fetch the node
content via icat and write it to the destination path. -/
def extract_file (env : Env) (img_name node destination : String) (d : Disk) : Disk :=
  diskWrite d destination (get_result_from_subprocess (env.icat img_name node))

/-- Embedding of os.path.getsize applied to a file on the modelled disk. -/
def os_path_getsize (d : Disk) (fname : String) : Nat :=
  (diskGetD d fname).length

/-- Embedding of get_md5 (image_ripper.py:168-173): the digest of the
bytes read back from the file. -/
def get_md5 (env : Env) (d : Disk) (fname : String) : String :=
  env.md5 (diskGetD d fname)

/-- The pure label-to-class mapping inside get_file_type
(image_ripper.py:160-166): a label starting with PDF is pdf, otherwise a
label starting with one of the five image signatures is image, and
anything else is other. -/
def classify_label (result : String) : String :=
  if strStartsWith result "PDF" then "pdf"
  else if (["JPEG", "PNG", "GIF", "TIFF", "PC bitmap"].any fun magic => strStartsWith result magic) then "image"
  else "other"

/-- Embedding of get_file_type (image_ripper.py:157-166): run the sniffer
on the file content and map its label to a class. -/
def get_file_type (env : Env) (d : Disk) (fname : String) : String :=
  classify_label (env.label (diskGetD d fname))

/-- An fls listing entry as built by get_nodes_from_fls: a location
identifier and the original path (which may contain slashes). -/
structure Entry where
  location : String
  fname : String
deriving DecidableEq

/-- The per-entry result dictionary built by extract_all_files, with the
file_metadata key that main adds later (none until enrichment). -/
structure FileResult where
  original_path : String
  location : String
  final_destination : Option String
  size : Nat
  md5 : String
  file_type : String
  file_metadata : Option String
deriving DecidableEq

/-- The destination path an entry resolves to: the basename of its
original path placed flat inside the destination directory
(image_ripper.py:122-124). -/
def resolvedDest (destination : String) (entry : Entry) : String :=
  pyJoin destination (pySplit (pyJoin destination entry.fname)).2

/-- One iteration of the extraction loop of extract_all_files
(image_ripper.py:116-139): resolve the destination, extract, record
size, md5 and file type, and if delete_other is set and the class is
other, delete the file and null the destination. -/
def extract_one (env : Env) (img_name destination : String) (delete_other : Bool) (d : Disk) (entry : Entry) : Disk × FileResult :=
  let full_path := pyJoin destination entry.fname
  let fname := (pySplit full_path).2
  let final_destination := pyJoin destination fname
  let d1 := extract_file env img_name entry.location final_destination d
  let sizev := os_path_getsize d1 final_destination
  let md5v := get_md5 env d1 final_destination
  let file_type := get_file_type env d1 final_destination
  if delete_other && (file_type == "other") then
    (diskRemove d1 final_destination,
     { original_path := entry.fname, location := entry.location, final_destination := none,
       size := sizev, md5 := md5v, file_type := file_type, file_metadata := none })
  else
    (d1,
     { original_path := entry.fname, location := entry.location, final_destination := some final_destination,
       size := sizev, md5 := md5v, file_type := file_type, file_metadata := none })

/-- Embedding of extract_all_files (image_ripper.py:110-140), threading
the disk through the loop.  The pipeline (main, lines 335-336) invokes it
with delete_other = true, the Python default. -/
def extract_all_files (env : Env) (img_name : String) (entries : List Entry) (destination : String) (d : Disk) (delete_other : Bool) : Disk × List FileResult :=
  match entries with
  | [] => (d, [])
  | entry :: rest =>
    let step := extract_one env img_name destination delete_other d entry
    let restOut := extract_all_files env img_name rest destination step.1 delete_other
    (restOut.1, step.2 :: restOut.2)

/-- Outcome of an external metadata extractor call: a metadata value, or
a raised exception. -/
inductive MetaOutcome
  | ok (m : String)
  | err
deriving DecidableEq

/-- Environment of the metadata extractors: get_pdf_metadata and
get_exif_data as invoked by main on the record's final_destination
(which is None for discarded records). -/
structure MetaEnv where
  pdf_meta : Option String → MetaOutcome
  exif_meta : Option String → MetaOutcome

/-- Embedding of one iteration of the metadata loops in main
(image_ripper.py:353-373): file_metadata is set to None, then the
extractor matching the file type is tried, any exception leaving the
None in place. -/
def enrich_entry (menv : MetaEnv) (e : FileResult) : FileResult :=
  if e.file_type == "pdf" then
    match menv.pdf_meta e.final_destination with
    | .ok m => { e with file_metadata := some m }
    | .err => { e with file_metadata := none }
  else if e.file_type == "image" then
    match menv.exif_meta e.final_destination with
    | .ok m => { e with file_metadata := some m }
    | .err => { e with file_metadata := none }
  else
    { e with file_metadata := none }

/-- Embedding of a whole metadata loop of main over one result list. -/
def enrich_all (menv : MetaEnv) (results : List FileResult) : List FileResult :=
  results.map (enrich_entry menv)

/-- One iteration of the size-totalling loops in main
(image_ripper.py:343-350): always add the size to the recovered total,
and add it to the useful total when the file type is not other. -/
def totalsStep (acc : Nat × Nat) (e : FileResult) : Nat × Nat :=
  (acc.1 + e.size, if e.file_type != "other" then acc.2 + e.size else acc.2)

/-- Embedding of the aggregation in main (image_ripper.py:341-350):
fold the deleted results first, then the overt results, starting from
(0, 0), yielding (total_file_size, total_useful_size). -/
def compute_totals (deleted_results overt_results : List FileResult) : Nat × Nat :=
  List.foldl totalsStep (List.foldl totalsStep (0, 0) deleted_results) overt_results

/-- Output of the tail of main: the two totals (computed before
enrichment) and the two enriched result lists (image_ripper.py:341-373). -/
structure RunOutput where
  total_file_size : Nat
  total_useful_size : Nat
  overt_enriched : List FileResult
  deleted_enriched : List FileResult
deriving DecidableEq

/-- Embedding of main after extraction (image_ripper.py:341-373): totals
are computed from the raw extraction results, then both lists are
enriched with metadata. -/
def finalize_run (menv : MetaEnv) (deleted_results overt_results : List FileResult) : RunOutput :=
  let totals := compute_totals deleted_results overt_results
  { total_file_size := totals.1, total_useful_size := totals.2,
    overt_enriched := enrich_all menv overt_results,
    deleted_enriched := enrich_all menv deleted_results }

/-- Sum of the size fields of a result list. -/
def sumSizes (l : List FileResult) : Nat :=
  (l.map (fun e => e.size)).sum

/-- Sum of the size fields of the results whose class is not other. -/
def sumUseful (l : List FileResult) : Nat :=
  ((l.filter (fun e => e.file_type != "other")).map (fun e => e.size)).sum

/-- Sum of the size fields of the results whose class is other. -/
def sumOther (l : List FileResult) : Nat :=
  ((l.filter (fun e => e.file_type == "other")).map (fun e => e.size)).sum

/-- The record extract_all_files emits for an entry, as a function of the
environment and the entry alone (the loop reads back exactly the bytes it
just wrote, so the record does not depend on the prior disk state). -/
def recordOf (env : Env) (img_name destination : String) (delete_other : Bool) (entry : Entry) : FileResult :=
  let data := (env.icat img_name entry.location).out
  let file_type := classify_label (env.label data)
  { original_path := entry.fname, location := entry.location,
    final_destination := if delete_other && (file_type == "other") then none else some (resolvedDest destination entry),
    size := data.length, md5 := env.md5 data, file_type := file_type, file_metadata := none }

/-!  Disk lemmas. -/

theorem diskGet_write_self (d : Disk) (p : String) (c : Bytes) :
    diskGet (diskWrite d p c) p = some c := by
  unfold diskGet diskWrite
  rw [List.find?_cons_of_pos]
  · rfl
  · simp

theorem find?_filter_of_ne (p q : String) (h : q ≠ p) (d : Disk) :
    List.find? (fun e => e.1 == q) (List.filter (fun e => e.1 != p) d) =
      List.find? (fun e => e.1 == q) d := by
  induction d with
  | nil => rfl
  | cons a rest ih =>
    rcases eq_or_ne a.1 p with hp | hp
    · have h2 : (a.1 == q) = false := by simp [hp, Ne.symm h]
      have h3 : (p == q) = false := by simp [Ne.symm h]
      simp [List.filter_cons, hp, List.find?_cons, h2, h3, ih]
    · by_cases h2 : (a.1 == q) = true
      · simp [List.filter_cons, hp, List.find?_cons, h2]
      · simp only [Bool.not_eq_true] at h2
        simp [List.filter_cons, hp, List.find?_cons, h2, ih]

theorem diskGet_write_of_ne (d : Disk) (p : String) (c : Bytes) (q : String) (h : q ≠ p) :
    diskGet (diskWrite d p c) q = diskGet d q := by
  unfold diskGet diskWrite
  rw [List.find?_cons_of_neg, find?_filter_of_ne p q h]
  simp [Ne.symm h]

theorem diskGet_remove_self (d : Disk) (p : String) :
    diskGet (diskRemove d p) p = none := by
  unfold diskGet diskRemove
  rw [List.find?_eq_none.mpr]
  · rfl
  · intro x hx
    have := (List.mem_filter.mp hx).2
    simp only [bne_iff_ne, ne_eq] at this
    simp [this]

theorem diskGet_remove_of_ne (d : Disk) (p q : String) (h : q ≠ p) :
    diskGet (diskRemove d p) q = diskGet d q := by
  unfold diskGet diskRemove
  rw [find?_filter_of_ne p q h]

theorem diskHas_write_of_has (d : Disk) (p : String) (c : Bytes) (q : String)
    (h : diskHas d q = true) : diskHas (diskWrite d p c) q = true := by
  rcases eq_or_ne q p with rfl | hne
  · simp [diskHas, diskGet_write_self]
  · simp only [diskHas, diskGet_write_of_ne d p c q hne]
    exact h

/-!  Characterization of extract_one. -/

theorem extract_one_snd (env : Env) (img_name destination : String) (b : Bool) (d : Disk) (entry : Entry) :
    (extract_one env img_name destination b d entry).2 = recordOf env img_name destination b entry := by
  simp only [extract_one, recordOf, extract_file, os_path_getsize, get_md5, get_file_type,
    get_result_from_subprocess, resolvedDest, diskGetD, diskGet_write_self, Option.getD_some]
  split <;> rfl

theorem extract_one_fst (env : Env) (img_name destination : String) (b : Bool) (d : Disk) (entry : Entry) :
    (extract_one env img_name destination b d entry).1 =
      if b && (classify_label (env.label ((env.icat img_name entry.location).out)) == "other")
      then diskRemove (diskWrite d (resolvedDest destination entry) ((env.icat img_name entry.location).out)) (resolvedDest destination entry)
      else diskWrite d (resolvedDest destination entry) ((env.icat img_name entry.location).out) := by
  simp only [extract_one, extract_file, os_path_getsize, get_md5, get_file_type,
    get_result_from_subprocess, resolvedDest, diskGetD, diskGet_write_self, Option.getD_some]
  split <;> rfl

theorem extract_one_get_of_ne (env : Env) (img_name destination : String) (b : Bool) (d : Disk) (entry : Entry)
    (q : String) (h : q ≠ resolvedDest destination entry) :
    diskGet (extract_one env img_name destination b d entry).1 q = diskGet d q := by
  rw [extract_one_fst]
  split
  · rw [diskGet_remove_of_ne _ _ _ h, diskGet_write_of_ne _ _ _ _ h]
  · rw [diskGet_write_of_ne _ _ _ _ h]

theorem extract_one_has_of_has (env : Env) (img_name destination : String) (d : Disk) (entry : Entry)
    (q : String) (h : diskHas d q = true) :
    diskHas (extract_one env img_name destination false d entry).1 q = true := by
  rw [extract_one_fst]
  simp only [Bool.false_and, Bool.false_eq_true, if_false]
  exact diskHas_write_of_has _ _ _ _ h

/-!  Characterization of extract_all_files. -/

theorem extract_all_files_snd (env : Env) (img_name : String) (entries : List Entry) (destination : String)
    (d : Disk) (b : Bool) :
    (extract_all_files env img_name entries destination d b).2 =
      entries.map (recordOf env img_name destination b) := by
  induction entries generalizing d with
  | nil => rfl
  | cons e rest ih => simp [extract_all_files, extract_one_snd, ih]

theorem extract_all_files_get_of_ne (env : Env) (img_name : String) (entries : List Entry) (destination : String)
    (b : Bool) (q : String) (h : ∀ e ∈ entries, resolvedDest destination e ≠ q) (d : Disk) :
    diskGet (extract_all_files env img_name entries destination d b).1 q = diskGet d q := by
  induction entries generalizing d with
  | nil => rfl
  | cons e rest ih =>
    simp only [extract_all_files]
    rw [ih (fun x hx => h x (List.mem_cons_of_mem e hx)),
      extract_one_get_of_ne env img_name destination b d e q (Ne.symm (h e (List.mem_cons_self e rest)))]

theorem extract_all_files_has_of_has (env : Env) (img_name : String) (entries : List Entry) (destination : String)
    (q : String) (d : Disk) (h : diskHas d q = true) :
    diskHas (extract_all_files env img_name entries destination d false).1 q = true := by
  induction entries generalizing d with
  | nil => exact h
  | cons e rest ih =>
    simp only [extract_all_files]
    exact ih _ (extract_one_has_of_has env img_name destination d e q h)

theorem extract_all_files_dest_present (env : Env) (img_name : String) (entries : List Entry)
    (destination : String) (i : Nat) (e : Entry) (he : entries.get? i = some e) (d : Disk) :
    diskHas (extract_all_files env img_name entries destination d false).1 (resolvedDest destination e) = true := by
  induction entries generalizing i d with
  | nil => simp at he
  | cons a rest ih =>
    cases i with
    | zero =>
      simp only [List.get?_cons_zero, Option.some.injEq] at he
      subst he
      simp only [extract_all_files]
      apply extract_all_files_has_of_has
      rw [extract_one_fst]
      simp only [Bool.false_and, Bool.false_eq_true, if_false]
      simp [diskHas, diskGet_write_self]
    | succ j =>
      simp only [List.get?_cons_succ] at he
      simp only [extract_all_files]
      exact ih j he _

theorem extract_all_files_other_absent (env : Env) (img_name : String) (entries : List Entry)
    (destination : String)
    (hp : List.Pairwise (fun e1 e2 => resolvedDest destination e1 ≠ resolvedDest destination e2) entries)
    (i : Nat) (e : Entry) (he : entries.get? i = some e)
    (ht : classify_label (env.label ((env.icat img_name e.location).out)) = "other") (d : Disk) :
    diskHas (extract_all_files env img_name entries destination d true).1 (resolvedDest destination e) = false := by
  induction entries generalizing i d with
  | nil => simp at he
  | cons a rest ih =>
    rw [List.pairwise_cons] at hp
    cases i with
    | zero =>
      simp only [List.get?_cons_zero, Option.some.injEq] at he
      cases he
      simp only [extract_all_files, diskHas]
      rw [extract_all_files_get_of_ne env img_name rest destination true (resolvedDest destination e)
        (fun x hx => Ne.symm (hp.1 x hx))]
      rw [extract_one_fst]
      rw [if_pos (by simp [ht])]
      simp [diskGet_remove_self]
    | succ j =>
      simp only [List.get?_cons_succ] at he
      simp only [extract_all_files]
      exact ih hp.2 j he _

theorem extract_one_congr (env env2 : Env) (img_name destination : String) (b : Bool) (d : Disk) (entry : Entry)
    (hout : ∀ i l, (env2.icat i l).out = (env.icat i l).out)
    (hmd5 : env2.md5 = env.md5) (hlabel : env2.label = env.label) :
    extract_one env2 img_name destination b d entry = extract_one env img_name destination b d entry := by
  simp only [extract_one, extract_file, os_path_getsize, get_md5, get_file_type,
    get_result_from_subprocess, hout, hmd5, hlabel]

theorem extract_all_files_congr (env env2 : Env) (img_name : String) (entries : List Entry)
    (destination : String) (b : Bool)
    (hout : ∀ i l, (env2.icat i l).out = (env.icat i l).out)
    (hmd5 : env2.md5 = env.md5) (hlabel : env2.label = env.label) (d : Disk) :
    extract_all_files env2 img_name entries destination d b =
      extract_all_files env img_name entries destination d b := by
  induction entries generalizing d with
  | nil => rfl
  | cons e rest ih =>
    simp only [extract_all_files]
    rw [extract_one_congr env env2 img_name destination b d e hout hmd5 hlabel, ih]

/-!  Aggregation lemmas. -/

theorem foldl_totalsStep (l : List FileResult) :
    ∀ a b : Nat, List.foldl totalsStep (a, b) l = (a + sumSizes l, b + sumUseful l) := by
  induction l with
  | nil => intro a b; simp [sumSizes, sumUseful]
  | cons x rest ih =>
    intro a b
    simp only [List.foldl_cons, totalsStep]
    cases h : (x.file_type != "other") with
    | true =>
      rw [if_pos rfl]
      rw [ih]
      have h1 : sumSizes (x :: rest) = x.size + sumSizes rest := by simp [sumSizes]
      have h2 : sumUseful (x :: rest) = x.size + sumUseful rest := by
        simp [sumUseful, List.filter_cons, h]
      rw [h1, h2]
      simp [Prod.ext_iff]
      constructor <;> omega
    | false =>
      rw [if_neg (by simp [h])]
      rw [ih]
      have h1 : sumSizes (x :: rest) = x.size + sumSizes rest := by simp [sumSizes]
      have h2 : sumUseful (x :: rest) = sumUseful rest := by
        simp [sumUseful, List.filter_cons, h]
      rw [h1, h2]
      simp [Prod.ext_iff]
      omega

theorem sumSizes_append (l1 l2 : List FileResult) :
    sumSizes (l1 ++ l2) = sumSizes l1 + sumSizes l2 := by
  simp [sumSizes]

theorem sumUseful_append (l1 l2 : List FileResult) :
    sumUseful (l1 ++ l2) = sumUseful l1 + sumUseful l2 := by
  simp [sumUseful, List.filter_append]

theorem compute_totals_eq (deleted_results overt_results : List FileResult) :
    compute_totals deleted_results overt_results =
      (sumSizes (deleted_results ++ overt_results), sumUseful (deleted_results ++ overt_results)) := by
  unfold compute_totals
  rw [foldl_totalsStep, foldl_totalsStep, sumSizes_append, sumUseful_append]
  simp [Prod.ext_iff]

theorem sumSizes_perm (l1 l2 : List FileResult) (h : l1.Perm l2) : sumSizes l1 = sumSizes l2 :=
  List.Perm.sum_eq (h.map _)

theorem sumUseful_perm (l1 l2 : List FileResult) (h : l1.Perm l2) : sumUseful l1 = sumUseful l2 :=
  List.Perm.sum_eq ((h.filter _).map _)

theorem sumSizes_split (l : List FileResult) : sumSizes l = sumUseful l + sumOther l := by
  induction l with
  | nil => rfl
  | cons x rest ih =>
    cases h : (x.file_type == "other") with
    | true =>
      have h2 : (x.file_type != "other") = false := by simp [bne, h]
      simp [sumSizes, sumUseful, sumOther, List.filter_cons, h, h2] at *
      omega
    | false =>
      have h2 : (x.file_type != "other") = true := by simp [bne, h]
      simp [sumSizes, sumUseful, sumOther, List.filter_cons, h, h2] at *
      omega

theorem sumOther_eq_zero (l : List FileResult) :
    sumOther l = 0 ↔ ∀ r ∈ l, r.file_type = "other" → r.size = 0 := by
  unfold sumOther
  rw [List.sum_eq_zero_iff]
  constructor
  · intro h r hr ht
    exact h _ (List.mem_map_of_mem _ (List.mem_filter.mpr ⟨hr, by simp [ht]⟩))
  · intro h x hx
    obtain ⟨r, hr, rfl⟩ := List.mem_map.mp hx
    obtain ⟨hrl, hrt⟩ := List.mem_filter.mp hr
    exact h r hrl (by simpa using hrt)

/-!  Enrichment lemmas. -/

theorem enrich_entry_frame (menv : MetaEnv) (e : FileResult) :
    ∃ fm, enrich_entry menv e = { e with file_metadata := fm } := by
  unfold enrich_entry
  repeat' split
  all_goals exact ⟨_, rfl⟩

/-!  Concrete fixtures used by witnesses and counterexamples. -/

/-- Test environment: location L1 yields two bytes sniffed as ASCII text,
any other location yields three bytes sniffed as JPEG. -/
def envA : Env :=
  { icat := fun _ loc => if loc == "L1" then { out := [104, 105], exitOk := true } else { out := [1, 2, 3], exitOk := true },
    md5 := fun data => if data == [104, 105] then "md5a" else "md5b",
    label := fun data => if data == [104, 105] then "ASCII text" else "JPEG image data" }

/-- Entry whose basename is a. -/
def entryA1 : Entry := { location := "L1", fname := "a" }

/-- Entry whose original path contains a slash and whose basename collides
with entryA1. -/
def entryA2 : Entry := { location := "L2", fname := "sub/a" }

/-- Second entry used by the fetch-failure scenario. -/
def entryB2 : Entry := { location := "L2", fname := "b" }

/-- The record extraction emits for entryA1 under envA with delete_other
set: classified other, destination nulled. -/
def recA1 : FileResult :=
  { original_path := "a", location := "L1", final_destination := none,
    size := 2, md5 := "md5a", file_type := "other", file_metadata := none }

/-- The record extraction emits for entryA1 under envA with delete_other
unset: classified other but the file is kept. -/
def recA1kept : FileResult :=
  { original_path := "a", location := "L1", final_destination := some "dest/a",
    size := 2, md5 := "md5a", file_type := "other", file_metadata := none }

/-- An image-classified record fixture. -/
def recImg : FileResult :=
  { original_path := "b", location := "L2", final_destination := some "dest/b",
    size := 3, md5 := "md5b", file_type := "image", file_metadata := none }

/-- A pdf-classified record fixture. -/
def recPdf : FileResult :=
  { original_path := "p", location := "L9", final_destination := some "dest/p",
    size := 4, md5 := "md5p", file_type := "pdf", file_metadata := none }

/-- An other-classified record of size zero. -/
def recOtherZero : FileResult :=
  { original_path := "z", location := "L0", final_destination := none,
    size := 0, md5 := "md5z", file_type := "other", file_metadata := none }

/-- Environment where the fetcher fails for location L1: icat exits with an
error and produces no stdout bytes. -/
def envFail : Env :=
  { icat := fun _ loc => if loc == "L1" then { out := [], exitOk := false } else { out := [1, 2, 3], exitOk := true },
    md5 := fun data => if data == [] then "md5empty" else "md5b",
    label := fun data => if data == [] then "empty" else "JPEG image data" }

/-- The same environment with every icat invocation reported successful. -/
def envFixed : Env :=
  { icat := fun _ loc => if loc == "L1" then { out := [], exitOk := true } else { out := [1, 2, 3], exitOk := true },
    md5 := fun data => if data == [] then "md5empty" else "md5b",
    label := fun data => if data == [] then "empty" else "JPEG image data" }

/-- Metadata environment whose PDF extractor succeeds and whose EXIF
extractor raises. -/
def menvOk : MetaEnv :=
  { pdf_meta := fun _ => .ok "pdfinfo", exif_meta := fun _ => .err }

/-- C1 fails as stated: with two entries whose basenames collide, the
first entry is classified other and its destination is nulled, yet the
path it wrote (dest/a) exists on disk after extraction completes, because
the second entry re-created it. -/
theorem C1_collision_counterexample :
    ((extract_all_files envA "img" [entryA1, entryA2] "dest" [] true).2.get? 0 = some recA1) ∧
    recA1.file_type = "other" ∧
    resolvedDest "dest" entryA1 = "dest/a" ∧
    diskHas (extract_all_files envA "img" [entryA1, entryA2] "dest" [] true).1 "dest/a" = true := by
  decide

/-- C1 (amended): as invoked by the pipeline (delete_other = true),
final_destination is null iff the record's class is other; and provided
the entries' resolved destination paths are pairwise distinct, for every
record classified other the file written during extraction does not exist
on disk after extraction completes (with colliding basenames a later
entry may re-create the path). -/
theorem C1_destination_invariant (env : Env) (img_name : String) (entries : List Entry)
    (destination : String) (d : Disk) :
    (∀ r ∈ (extract_all_files env img_name entries destination d true).2,
        (r.final_destination = none ↔ r.file_type = "other")) ∧
    (List.Pairwise (fun e1 e2 => resolvedDest destination e1 ≠ resolvedDest destination e2) entries →
      ∀ i e r, entries.get? i = some e →
        (extract_all_files env img_name entries destination d true).2.get? i = some r →
        r.file_type = "other" →
        diskHas (extract_all_files env img_name entries destination d true).1 (resolvedDest destination e) = false) := by
  constructor
  · intro r hr
    rw [extract_all_files_snd] at hr
    obtain ⟨e, he, rfl⟩ := List.mem_map.mp hr
    by_cases h : classify_label (env.label ((env.icat img_name e.location).out)) = "other"
    · simp [recordOf, h]
    · simp [recordOf, h]
  · intro hp i e r he hr ht
    apply extract_all_files_other_absent env img_name entries destination hp i e he
    rw [extract_all_files_snd, List.get?_map, he] at hr
    simp only [Option.map_some'] at hr
    cases hr
    simpa [recordOf] using ht

/-- C1 witness: a single other-classified entry has a null destination and
its written file is gone after extraction. -/
theorem C1_destination_invariant_witness :
    (recA1.final_destination = none ↔ recA1.file_type = "other") ∧
    diskHas (extract_all_files envA "img" [entryA1] "dest" [] true).1 (resolvedDest "dest" entryA1) = false := by
  constructor
  · exact (C1_destination_invariant envA "img" [entryA1] "dest" []).1 recA1 (by decide)
  · exact (C1_destination_invariant envA "img" [entryA1] "dest" []).2 (by simp) 0 entryA1 recA1
      (by decide) (by decide) (by decide)

/-- C2 fails as stated: when the Content Fetcher fails for an entry (icat
exits with an error and yields no bytes), the entry is neither omitted
nor marked: extraction emits an ordinary record for it (size 0, digest of
the empty byte string), and the whole output is identical to a run in
which the same fetch succeeded with the same bytes. -/
theorem C2_fetch_failure_counterexample :
    ((extract_all_files envFail "img" [entryA1, entryB2] "dest" [] true).2.length = 2) ∧
    ((extract_all_files envFail "img" [entryA1, entryB2] "dest" [] true).2.get? 0 =
      some { original_path := "a", location := "L1", final_destination := none, size := 0,
             md5 := "md5empty", file_type := "other", file_metadata := none }) ∧
    (extract_all_files envFail "img" [entryA1, entryB2] "dest" [] true =
      extract_all_files envFixed "img" [entryA1, entryB2] "dest" [] true) := by
  decide

/-- C2 (amended): a fetch failure is not surfaced: extraction ignores the
fetcher's exit status entirely, emits one ordinary Artifact Record per
entry computed from whatever stdout bytes (possibly empty) the fetcher
produced — indistinguishable from a successful fetch of the same bytes,
with no omission and no failure marker — and processing continues with
the remaining entries. -/
theorem C2_fetch_failure_absorbed (env env2 : Env) (img_name : String) (entries : List Entry)
    (destination : String) (d : Disk) (b : Bool)
    (hout : ∀ i l, (env2.icat i l).out = (env.icat i l).out)
    (hmd5 : env2.md5 = env.md5) (hlabel : env2.label = env.label) :
    (extract_all_files env img_name entries destination d b).2.length = entries.length ∧
    extract_all_files env2 img_name entries destination d b =
      extract_all_files env img_name entries destination d b := by
  refine ⟨?_, extract_all_files_congr env env2 img_name entries destination b hout hmd5 hlabel d⟩
  rw [extract_all_files_snd]
  simp

/-- C2 witness: the failing-fetch environment and its all-successful twin
process both entries and produce identical outputs. -/
theorem C2_fetch_failure_absorbed_witness :
    (extract_all_files envFail "img" [entryA1, entryB2] "dest" [] true).2.length = [entryA1, entryB2].length ∧
    extract_all_files envFixed "img" [entryA1, entryB2] "dest" [] true =
      extract_all_files envFail "img" [entryA1, entryB2] "dest" [] true :=
  C2_fetch_failure_absorbed envFail envFixed "img" [entryA1, entryB2] "dest" [] true
    (fun i l => by by_cases h : l = "L1" <;> simp [envFail, envFixed, h]) rfl rfl

/-- C3: the label-to-class mapping of get_file_type returns pdf exactly
when the sniffer label starts with PDF, image exactly when it does not
start with PDF but starts with one of the five image signatures, and
other in every remaining case; it is a total function, so no input can
raise. -/
theorem C3_classify_label_cases (s : String) :
    (classify_label s = "pdf" ↔ strStartsWith s "PDF" = true) ∧
    (classify_label s = "image" ↔ (strStartsWith s "PDF" = false ∧
      (["JPEG", "PNG", "GIF", "TIFF", "PC bitmap"].any fun magic => strStartsWith s magic) = true)) ∧
    (classify_label s = "other" ↔ (strStartsWith s "PDF" = false ∧
      (["JPEG", "PNG", "GIF", "TIFF", "PC bitmap"].any fun magic => strStartsWith s magic) = false)) ∧
    (classify_label s = "pdf" ∨ classify_label s = "image" ∨ classify_label s = "other") := by
  unfold classify_label
  cases h1 : strStartsWith s "PDF" <;>
    cases h2 : (["JPEG", "PNG", "GIF", "TIFF", "PC bitmap"].any fun magic => strStartsWith s magic) <;>
      simp [h1, h2]

/-- C4: for every entry (other-classified ones included), the emitted
record's size is the byte length of the exact bytes fetched and written
for that entry and its md5 is the digest of those same bytes, both taken
before the discard decision. -/
theorem C4_size_md5_from_fetched_bytes (env : Env) (img_name : String) (entries : List Entry)
    (destination : String) (d : Disk) (b : Bool) (i : Nat) (e : Entry) (r : FileResult)
    (he : entries.get? i = some e)
    (hr : (extract_all_files env img_name entries destination d b).2.get? i = some r) :
    r.size = ((env.icat img_name e.location).out).length ∧
    r.md5 = env.md5 ((env.icat img_name e.location).out) := by
  rw [extract_all_files_snd, List.get?_map, he] at hr
  simp only [Option.map_some'] at hr
  cases hr
  exact ⟨rfl, rfl⟩

/-- C4 witness: the discarded record for entryA1 still carries the size
and digest of its two fetched bytes. -/
theorem C4_size_md5_witness :
    recA1.size = ((envA.icat "img" entryA1.location).out).length ∧
    recA1.md5 = envA.md5 ((envA.icat "img" entryA1.location).out) :=
  C4_size_md5_from_fetched_bytes envA "img" [entryA1] "dest" [] true 0 entryA1 recA1
    (by decide) (by decide)

/-- C5: total_recovered_bytes is the sum of size over the union of both
partitions (other-classified records included), total_useful_bytes is the
sum of size over exactly the records whose class is not other, and both
totals are invariant under any permutation of the records across the two
partitions. -/
theorem C5_totals_sum_and_perm (deleted_results overt_results : List FileResult) :
    compute_totals deleted_results overt_results =
      (sumSizes (deleted_results ++ overt_results), sumUseful (deleted_results ++ overt_results)) ∧
    (∀ dr2 or2 : List FileResult, (deleted_results ++ overt_results).Perm (dr2 ++ or2) →
      compute_totals deleted_results overt_results = compute_totals dr2 or2) := by
  refine ⟨compute_totals_eq _ _, ?_⟩
  intro dr2 or2 h
  rw [compute_totals_eq, compute_totals_eq, sumSizes_perm _ _ h, sumUseful_perm _ _ h]

/-- C5 witness: the totals over a discarded record and an image record,
and their invariance under swapping the two partitions. -/
theorem C5_totals_witness :
    compute_totals [recA1] [recImg] = (sumSizes ([recA1] ++ [recImg]), sumUseful ([recA1] ++ [recImg])) ∧
    compute_totals [recA1] [recImg] = compute_totals [recImg] [recA1] :=
  ⟨(C5_totals_sum_and_perm [recA1] [recImg]).1,
   (C5_totals_sum_and_perm [recA1] [recImg]).2 [recImg] [recA1] (List.Perm.swap recImg recA1 [])⟩

/-- C6 fails as stated: an other-classified record of size zero makes the
two totals equal even though a record in the collection is classified
other, refuting the only-if direction of the claimed equivalence. -/
theorem C6_equality_counterexample :
    (compute_totals [] [recOtherZero]).1 = (compute_totals [] [recOtherZero]).2 ∧
    recOtherZero ∈ ([] ++ [recOtherZero]) ∧
    recOtherZero.file_type = "other" := by
  decide

/-- C6 (amended): total_recovered_bytes >= total_useful_bytes always, and
the two totals are equal iff every record classified as other has size 0
(in particular whenever no record is classified as other). -/
theorem C6_totals_inequality (deleted_results overt_results : List FileResult) :
    (compute_totals deleted_results overt_results).2 ≤ (compute_totals deleted_results overt_results).1 ∧
    ((compute_totals deleted_results overt_results).1 = (compute_totals deleted_results overt_results).2 ↔
      ∀ r ∈ deleted_results ++ overt_results, r.file_type = "other" → r.size = 0) := by
  have hkey := sumSizes_split (deleted_results ++ overt_results)
  have hz := sumOther_eq_zero (deleted_results ++ overt_results)
  rw [compute_totals_eq]
  constructor
  · show sumUseful (deleted_results ++ overt_results) ≤ sumSizes (deleted_results ++ overt_results)
    omega
  · show sumSizes (deleted_results ++ overt_results) = sumUseful (deleted_results ++ overt_results) ↔ _
    constructor
    · intro h
      exact hz.mp (by omega)
    · intro h
      have h2 := hz.mpr h
      omega

/-- C6 witness: with a single image record the totals are ordered and
equal. -/
theorem C6_totals_witness :
    (compute_totals [] [recImg]).2 ≤ (compute_totals [] [recImg]).1 ∧
    (compute_totals [] [recImg]).1 = (compute_totals [] [recImg]).2 :=
  ⟨(C6_totals_inequality [] [recImg]).1,
   (C6_totals_inequality [] [recImg]).2.mpr (by decide)⟩

/-- C7: metadata enrichment invokes the PDF extractor exactly on
pdf-classified records and the EXIF extractor exactly on image-classified
records (the result depends only on the matching extractor), performs no
extractor call and leaves metadata null on other records, absorbs any
extractor failure into a null metadata field, and processes every record
of a list (no abort, no propagated error). -/
theorem C7_enrichment_dispatch (menv : MetaEnv) (e : FileResult) :
    (e.file_type = "pdf" →
      ((∀ m, menv.pdf_meta e.final_destination = .ok m → (enrich_entry menv e).file_metadata = some m) ∧
       (menv.pdf_meta e.final_destination = .err → (enrich_entry menv e).file_metadata = none) ∧
       (∀ menv2 : MetaEnv, menv2.pdf_meta = menv.pdf_meta →
         enrich_entry menv2 e = enrich_entry menv e))) ∧
    (e.file_type = "image" →
      ((∀ m, menv.exif_meta e.final_destination = .ok m → (enrich_entry menv e).file_metadata = some m) ∧
       (menv.exif_meta e.final_destination = .err → (enrich_entry menv e).file_metadata = none) ∧
       (∀ menv2 : MetaEnv, menv2.exif_meta = menv.exif_meta →
         enrich_entry menv2 e = enrich_entry menv e))) ∧
    (e.file_type ≠ "pdf" → e.file_type ≠ "image" →
      ((enrich_entry menv e).file_metadata = none ∧
       ∀ menv2 : MetaEnv, enrich_entry menv2 e = enrich_entry menv e)) ∧
    (∀ results : List FileResult,
      (enrich_all menv results).length = results.length ∧
      ∀ i, (enrich_all menv results).get? i = (results.get? i).map (enrich_entry menv)) := by
  have hip : ("image" == "pdf") = false := by decide
  refine ⟨?_, ?_, ?_, ?_⟩
  · intro h
    refine ⟨?_, ?_, ?_⟩
    · intro m hm
      simp [enrich_entry, h, hm]
    · intro hm
      simp [enrich_entry, h, hm]
    · intro menv2 hm
      simp [enrich_entry, h, hm]
  · intro h
    refine ⟨?_, ?_, ?_⟩
    · intro m hm
      simp [enrich_entry, h, hip, hm]
    · intro hm
      simp [enrich_entry, h, hip, hm]
    · intro menv2 hm
      simp [enrich_entry, h, hip, hm]
  · intro h1 h2
    constructor
    · simp [enrich_entry, h1, h2]
    · intro menv2
      simp [enrich_entry, h1, h2]
  · intro results
    exact ⟨by simp [enrich_all], fun i => by simp [enrich_all, List.get?_map]⟩

/-- C7 witness: a pdf record picks up its extractor's metadata, an image
record whose extractor raises keeps a null metadata field, and an other
record stays null. -/
theorem C7_enrichment_witness :
    (enrich_entry menvOk recPdf).file_metadata = some "pdfinfo" ∧
    (enrich_entry menvOk recImg).file_metadata = none ∧
    (enrich_entry menvOk recA1).file_metadata = none := by
  refine ⟨?_, ?_, ?_⟩
  · exact ((C7_enrichment_dispatch menvOk recPdf).1 rfl).1 "pdfinfo" rfl
  · exact ((C7_enrichment_dispatch menvOk recImg).2.1 rfl).2.1 rfl
  · exact ((C7_enrichment_dispatch menvOk recA1).2.2.1 (by decide) (by decide)).1

/-- C8: metadata enrichment changes only file_metadata: original_path,
location, final_destination, size, md5 and file_type are identical before
and after, whatever the extractor does; and enrich_all maps each record
in place at its position, so a record's provenance partition (the deleted
flag save_sql later attaches per list) is unchanged as well. -/
theorem C8_enrichment_frame (menv : MetaEnv) (e : FileResult) (results : List FileResult) :
    (enrich_entry menv e).original_path = e.original_path ∧
    (enrich_entry menv e).location = e.location ∧
    (enrich_entry menv e).final_destination = e.final_destination ∧
    (enrich_entry menv e).size = e.size ∧
    (enrich_entry menv e).md5 = e.md5 ∧
    (enrich_entry menv e).file_type = e.file_type ∧
    (enrich_all menv results).length = results.length := by
  obtain ⟨fm, hfm⟩ := enrich_entry_frame menv e
  rw [hfm]
  exact ⟨rfl, rfl, rfl, rfl, rfl, rfl, by simp [enrich_all]⟩

/-- C9: the aggregate totals of a run are a function of the extraction
records alone: two runs over the same extraction output that differ only
in what the PDF and EXIF metadata extractors return (failures included)
produce identical total_file_size and total_useful_size. -/
theorem C9_totals_noninterference (menv1 menv2 : MetaEnv) (deleted_results overt_results : List FileResult) :
    (finalize_run menv1 deleted_results overt_results).total_file_size =
      (finalize_run menv2 deleted_results overt_results).total_file_size ∧
    (finalize_run menv1 deleted_results overt_results).total_useful_size =
      (finalize_run menv2 deleted_results overt_results).total_useful_size :=
  ⟨rfl, rfl⟩

/-- C10: with delete_other = false extract_all_files deletes nothing —
every record, other-classified ones included, carries the non-null
resolved destination and its file exists on disk after extraction, and
every pre-existing path is still present — so the null-iff-other
invariant holds only under the default delete_other = true. -/
theorem C10_delete_other_false_keeps_files (env : Env) (img_name : String) (entries : List Entry)
    (destination : String) (d : Disk) :
    (∀ i e r, entries.get? i = some e →
      (extract_all_files env img_name entries destination d false).2.get? i = some r →
      r.final_destination = some (resolvedDest destination e) ∧
      diskHas (extract_all_files env img_name entries destination d false).1 (resolvedDest destination e) = true) ∧
    (∀ p, diskHas d p = true →
      diskHas (extract_all_files env img_name entries destination d false).1 p = true) := by
  constructor
  · intro i e r he hr
    constructor
    · rw [extract_all_files_snd, List.get?_map, he] at hr
      simp only [Option.map_some'] at hr
      cases hr
      simp [recordOf]
    · exact extract_all_files_dest_present env img_name entries destination i e he d
  · intro p hp
    exact extract_all_files_has_of_has env img_name entries destination p d hp

/-- C10 witness: an other-classified entry extracted with delete_other
unset keeps its destination and its file, and a pre-existing file
survives extraction. -/
theorem C10_delete_other_false_witness :
    (recA1kept.final_destination = some (resolvedDest "dest" entryA1) ∧
     diskHas (extract_all_files envA "img" [entryA1] "dest" [] false).1 (resolvedDest "dest" entryA1) = true) ∧
    diskHas (extract_all_files envA "img" [entryA1] "dest" [("pre", [7])] false).1 "pre" = true := by
  constructor
  · exact (C10_delete_other_false_keeps_files envA "img" [entryA1] "dest" []).1 0 entryA1 recA1kept
      (by decide) (by decide)
  · exact (C10_delete_other_false_keeps_files envA "img" [entryA1] "dest" [("pre", [7])]).2 "pre" (by decide)

end ImageRipper
